import Mathlib

/-!
Verification of the influxdb-mcp client/server layers.

This file is a shallow embedding, in Lean 4, of the two Python modules
src/influxdb_mcp/influxdb_client.py and src/influxdb_mcp/server.py of the
influxdb-mcp repository, together with theorems settling the specification
claims about them.

Modelling conventions:
- Python dicts are association lists (List (String × _)) with Python's
  insertion semantics: updating an existing key overwrites it in place,
  a new key is appended at the end (dictInsert below).
- A raw Flux table row (FluxRecord.values) is Row V = List (String × V);
  a table is a list of rows; a query result is a list of tables.
- A flattened record produced by execute_query maps column names to
  Option V, where none models Python None (record.get_time() etc. return
  None when the column is missing).
- Network effects are oracles: an engine of type
  String → Except PyErr (List (Table V)) stands for query_api.query,
  and Except values stand for raised/returned Python outcomes.
- Query strings are reproduced byte-for-byte from the Python f-strings,
  written on one line with escaped newlines.
-/

set_option linter.unusedVariables false
set_option maxRecDepth 16384

namespace InfluxMcp

/-! ## Generic helpers: substring search on character lists -/

/-- Does the pattern occur at the very start of the list? -/
def occursAt : List Char → List Char → Bool
  | [], _ => true
  | _ :: _, [] => false
  | p :: ps, c :: cs => p == c && occursAt ps cs

/-- Does the pattern occur anywhere in the list? -/
def occursIn (pat : List Char) : List Char → Bool
  | [] => pat.isEmpty
  | c :: cs => occursAt pat (c :: cs) || occursIn pat cs

/-- Does the pattern occur anywhere in the string? -/
def strOccurs (s pat : String) : Bool := occursIn pat.data s.data

/-- The suffix of the list strictly after the first occurrence of the
pattern, or none when the pattern does not occur. -/
def afterOcc (pat : List Char) : List Char → Option (List Char)
  | [] => if pat.isEmpty then some [] else none
  | c :: cs => if occursAt pat (c :: cs) then some (List.drop pat.length (c :: cs)) else afterOcc pat cs

theorem occursAt_append_self (p r : List Char) : occursAt p (p ++ r) = true := by
  induction p with
  | nil => rfl
  | cons c cs ih => simp [occursAt, ih]

theorem occursIn_of_head {p l : List Char} (h : occursAt p l = true) : occursIn p l = true := by
  cases l with
  | nil =>
    cases p with
    | nil => rfl
    | cons x xs => simp [occursAt] at h
  | cons c cs => simp [occursIn, h]

theorem occursIn_of_tail {p : List Char} {c : Char} {l : List Char}
    (h : occursIn p l = true) : occursIn p (c :: l) = true := by
  simp [occursIn, h]

theorem occursIn_append_of_right {p b : List Char} (a : List Char)
    (h : occursIn p b = true) : occursIn p (a ++ b) = true := by
  induction a with
  | nil => simpa using h
  | cons x xs ih => exact occursIn_of_tail ih

theorem occursIn_of_append (p a b : List Char) : occursIn p (a ++ (p ++ b)) = true :=
  occursIn_append_of_right a (occursIn_of_head (occursAt_append_self p b))

theorem occursAt_subset {p l : List Char} (h : occursAt p l = true) : ∀ c ∈ p, c ∈ l := by
  induction p generalizing l with
  | nil => intro c hc; cases hc
  | cons x xs ih =>
    cases l with
    | nil => simp [occursAt] at h
    | cons y ys =>
      simp only [occursAt, Bool.and_eq_true, beq_iff_eq] at h
      intro c hc
      rcases List.mem_cons.mp hc with hcx | hcs
      · subst hcx; rw [h.1]; exact List.mem_cons_self y ys
      · exact List.mem_cons_of_mem y (ih h.2 c hcs)

theorem occursIn_subset {p l : List Char} (h : occursIn p l = true) : ∀ c ∈ p, c ∈ l := by
  induction l with
  | nil =>
    simp only [occursIn, List.isEmpty_iff] at h
    subst h; intro c hc; cases hc
  | cons y ys ih =>
    simp only [occursIn, Bool.or_eq_true] at h
    rcases h with h | h
    · exact occursAt_subset h
    · intro c hc; exact List.mem_cons_of_mem y (ih h c hc)

theorem occursIn_eq_false_of_not_mem {p l : List Char} {c : Char}
    (hc : c ∈ p) (hl : c ∉ l) : occursIn p l = false := by
  cases h : occursIn p l
  · rfl
  · exact absurd (occursIn_subset h c hc) hl

/-- Last character of (a ++ b) when b is nonempty. -/
theorem data_getLast?_append (a b : String) (h : b.data ≠ []) :
    (a ++ b).data.getLast? = b.data.getLast? := by
  rw [String.data_append, List.getLast?_append]
  rcases Option.isSome_iff_exists.mp (List.getLast?_isSome.mpr h) with ⟨x, hx⟩
  rw [hx, Option.or_some]

/-! ## Generic helpers: Python dict semantics -/

/-- Python dict assignment d[k] = v: overwrite in place when the key is
present, append at the end when it is new. -/
def dictInsert {α : Type} (d : List (String × α)) (k : String) (v : α) : List (String × α) :=
  if d.any (fun p => p.1 == k) then d.map (fun p => if p.1 = k then (k, v) else p)
  else d ++ [(k, v)]

/-- Python dict read d.get(k): the first (hence, by the dict invariant,
only) binding of the key. -/
def lookupKV {α : Type} : List (String × α) → String → Option α
  | [], _ => none
  | (k₁, v₁) :: tl, k => if k₁ = k then some v₁ else lookupKV tl k

theorem dictInsert_cons_ne {α : Type} {k₁ k : String} (v₁ : α) (tl : List (String × α)) (v : α)
    (h : k₁ ≠ k) :
    dictInsert ((k₁, v₁) :: tl) k v = (k₁, v₁) :: dictInsert tl k v := by
  simp only [dictInsert, List.any_cons, show (k₁ == k) = false by simp [h], Bool.false_or,
    List.map_cons, List.cons_append]
  by_cases ha : (tl.any fun p => p.1 == k) = true
  · rw [if_pos ha, if_pos ha]
    simp [h]
  · rw [if_neg ha, if_neg ha]

theorem lookupKV_dictInsert_self {α : Type} (d : List (String × α)) (k : String) (v : α) :
    lookupKV (dictInsert d k v) k = some v := by
  induction d with
  | nil => simp [dictInsert, lookupKV]
  | cons hd tl ih =>
    obtain ⟨k₁, v₁⟩ := hd
    by_cases hk : k₁ = k
    · subst hk
      simp [dictInsert, lookupKV]
    · rw [dictInsert_cons_ne v₁ tl v hk]
      simp [lookupKV, hk, ih]

theorem lookupKV_map_overwrite_ne {α : Type} (d : List (String × α)) (k k' : String) (v : α)
    (h : k' ≠ k) :
    lookupKV (d.map (fun p => if p.1 = k then (k, v) else p)) k' = lookupKV d k' := by
  induction d with
  | nil => rfl
  | cons hd tl ih =>
    obtain ⟨k₁, v₁⟩ := hd
    simp only [List.map_cons]
    by_cases hk : k₁ = k
    · subst hk
      rw [show (if (k₁, v₁).1 = k₁ then (k₁, v) else (k₁, v₁)) = (k₁, v) from if_pos rfl]
      simp only [lookupKV]
      rw [if_neg (Ne.symm h), if_neg (Ne.symm h)]
      exact ih
    · rw [show (if (k₁, v₁).1 = k then (k, v) else (k₁, v₁)) = (k₁, v₁) from if_neg hk]
      by_cases hk' : k₁ = k'
      · subst hk'
        simp [lookupKV]
      · simp only [lookupKV]
        rw [if_neg hk', if_neg hk']
        exact ih

theorem lookupKV_append_single_ne {α : Type} (d : List (String × α)) (k k' : String) (v : α)
    (h : k' ≠ k) :
    lookupKV (d ++ [(k, v)]) k' = lookupKV d k' := by
  induction d with
  | nil => simp [lookupKV, Ne.symm h]
  | cons hd tl ih =>
    obtain ⟨k₁, v₁⟩ := hd
    by_cases hk : k₁ = k'
    · simp [lookupKV, hk]
    · simp [lookupKV, hk, ih]

theorem lookupKV_dictInsert_ne {α : Type} (d : List (String × α)) (k k' : String) (v : α)
    (h : k' ≠ k) :
    lookupKV (dictInsert d k v) k' = lookupKV d k' := by
  by_cases ha : (d.any fun p => p.1 == k) = true
  · simp only [dictInsert, ha, if_pos]
    exact lookupKV_map_overwrite_ne d k k' v h
  · simp only [dictInsert, ha, Bool.false_eq_true, if_neg, not_false_iff]
    exact lookupKV_append_single_ne d k k' v h

theorem dictInsert_append_of_fresh {α : Type} (d : List (String × α)) (k : String) (v : α)
    (h : ∀ p ∈ d, p.1 ≠ k) : dictInsert d k v = d ++ [(k, v)] := by
  have : d.any (fun p => p.1 == k) = false := by
    rw [List.any_eq_false]
    intro p hp
    simp [h p hp]
  simp [dictInsert, this]

/-! ## Generic helpers: Python truthiness and sorted(set(...)) -/

/-- Python truthiness of an optional string argument: None and "" are falsy. -/
def truthyOptStr : Option String → Bool
  | none => false
  | some s => !(s == "")

/-- Python truthiness of an optional list argument: None and [] are falsy. -/
def truthyOptList {α : Type} : Option (List α) → Bool
  | none => false
  | some l => !l.isEmpty

/-- Python truthiness of an optional int argument: None and 0 are falsy. -/
def truthyOptInt : Option Int → Bool
  | none => false
  | some n => !(n == 0)

theorem truthyOptList_false_getD {α : Type} {o : Option (List α)}
    (h : truthyOptList o = false) : o.getD [] = [] := by
  cases o with
  | none => rfl
  | some l =>
    have hl : l = [] := List.isEmpty_iff.mp (by unfold truthyOptList at h; simpa using h)
    simp [hl]

/-- Kernel-computable lexicographic comparison on character lists. -/
def listLexLe : List Char → List Char → Bool
  | [], _ => true
  | _ :: _, [] => false
  | a :: as, b :: bs => if a = b then listLexLe as bs else decide (a < b)

/-- Lexicographic string comparison used to model Python sorted(). -/
def strLeB (a b : String) : Bool := listLexLe a.data b.data

theorem listLexLe_sound {x y : List Char} (h : listLexLe x y = true) :
    ¬ List.Lex (· < ·) y x := by
  induction x generalizing y with
  | nil => intro hl; cases hl
  | cons a as ih =>
    cases y with
    | nil => simp [listLexLe] at h
    | cons b bs =>
      by_cases hab : a = b
      · subst hab
        rw [show listLexLe (a :: as) (a :: bs) = listLexLe as bs by simp [listLexLe]] at h
        intro hl
        cases hl with
        | cons hl' => exact ih h hl'
        | rel hr => exact lt_irrefl _ hr
      · rw [show listLexLe (a :: as) (b :: bs) = decide (a < b) by simp [listLexLe, hab]] at h
        have hlt : a < b := of_decide_eq_true h
        intro hl
        cases hl with
        | cons hl' => exact hab rfl
        | rel hr => exact absurd hlt (lt_asymm hr)

theorem listLexLe_total : ∀ x y : List Char, (listLexLe x y || listLexLe y x) = true := by
  intro x
  induction x with
  | nil => intro y; rfl
  | cons a as ih =>
    intro y
    cases y with
    | nil => rfl
    | cons b bs =>
      by_cases hab : a = b
      · subst hab
        simpa [listLexLe] using ih bs
      · rcases lt_trichotomy a b with h | h | h
        · simp [listLexLe, hab, decide_eq_true h]
        · exact absurd h hab
        · simp [listLexLe, hab, Ne.symm hab, decide_eq_true h]

theorem strLeB_le {a b : String} (h : strLeB a b = true) : a ≤ b := by
  rw [String.le_iff_toList_le]
  exact not_lt.mp (listLexLe_sound h)

theorem strLeB_total (a b : String) : (strLeB a b || strLeB b a) = true :=
  listLexLe_total a.data b.data

/-- Python insertion into a sorted list (ascending). -/
def insertSorted (x : String) : List String → List String
  | [] => [x]
  | y :: ys => if strLeB x y then x :: y :: ys else y :: insertSorted x ys

/-- Python sorted(): ascending insertion sort. -/
def pySorted : List String → List String
  | [] => []
  | x :: xs => insertSorted x (pySorted xs)

/-- Python sorted(list(set(l))): distinct elements in ascending order. -/
def sortedDistinct (l : List String) : List String := pySorted l.dedup

theorem insertSorted_perm (x : String) (l : List String) :
    (insertSorted x l).Perm (x :: l) := by
  induction l with
  | nil => exact List.Perm.refl _
  | cons y ys ih =>
    by_cases hc : strLeB x y = true
    · rw [show insertSorted x (y :: ys) = x :: y :: ys by simp [insertSorted, hc]]
    · rw [show insertSorted x (y :: ys) = y :: insertSorted x ys by simp [insertSorted, hc]]
      exact (ih.cons y).trans (List.Perm.swap x y ys)

theorem mem_insertSorted {z x : String} {l : List String} :
    z ∈ insertSorted x l ↔ z = x ∨ z ∈ l := by
  rw [(insertSorted_perm x l).mem_iff, List.mem_cons]

theorem insertSorted_sorted {x : String} {l : List String}
    (h : List.Sorted (· ≤ ·) l) : List.Sorted (· ≤ ·) (insertSorted x l) := by
  induction l with
  | nil => simp [insertSorted]
  | cons y ys ih =>
    rw [List.sorted_cons] at h
    by_cases hc : strLeB x y = true
    · rw [show insertSorted x (y :: ys) = x :: y :: ys by simp [insertSorted, hc]]
      rw [List.sorted_cons]
      refine ⟨?_, List.sorted_cons.mpr h⟩
      intro b hb
      have hxy : x ≤ y := strLeB_le hc
      rcases List.mem_cons.mp hb with rfl | hb
      · exact hxy
      · exact le_trans hxy (h.1 b hb)
    · rw [show insertSorted x (y :: ys) = y :: insertSorted x ys by simp [insertSorted, hc]]
      rw [List.sorted_cons]
      refine ⟨?_, ih h.2⟩
      intro b hb
      rcases mem_insertSorted.mp hb with rfl | hb
      · have hyx : strLeB y b = true := by
          have := strLeB_total b y
          rw [show strLeB b y = false from Bool.not_eq_true _ ▸ (by simpa using hc), Bool.false_or] at this
          exact this
        exact strLeB_le hyx
      · exact h.1 b hb

theorem pySorted_perm (l : List String) : (pySorted l).Perm l := by
  induction l with
  | nil => exact List.Perm.refl _
  | cons x xs ih => exact (insertSorted_perm x (pySorted xs)).trans (ih.cons x)

theorem pySorted_sorted (l : List String) : List.Sorted (· ≤ ·) (pySorted l) := by
  induction l with
  | nil => simp [pySorted]
  | cons x xs ih => exact insertSorted_sorted ih

theorem sortedDistinct_nodup (l : List String) : (sortedDistinct l).Nodup :=
  ((pySorted_perm l.dedup).symm).nodup (List.nodup_dedup l)

theorem sortedDistinct_sorted (l : List String) : List.Sorted (· ≤ ·) (sortedDistinct l) :=
  pySorted_sorted l.dedup

theorem sortedDistinct_mem {x : String} {l : List String} : x ∈ sortedDistinct l ↔ x ∈ l :=
  ((pySorted_perm l.dedup).mem_iff).trans List.mem_dedup

/-! ## Data model (influxdb_client.py) -/

/-- Connection configuration (the InfluxDBConfig value from .config, as
consumed by InfluxDBManager; only the fields read by the embedded code
matter here). -/
structure InfluxDBConfig where
  url : String
  token : String
  org : String
  bucket : String
  timeout : Nat
  verifySSL : Bool

/-- A raw table row: FluxRecord.values, a mapping from column name to value. -/
abbrev Row (V : Type) := List (String × V)

/-- A raw table: an ordered list of rows. -/
abbrev Table (V : Type) := List (Row V)

/-- A flattened record as built by execute_query: column name to value,
where none models Python None (a missing standard column). -/
abbrev FlatRecord (V : Type) := List (String × Option V)

/-- FluxRecord column access: record.values[k] / record.get_time() etc.,
none when the column is absent. -/
def pyGet {V : Type} (r : Row V) (k : String) : Option V := lookupKV r k

/-- Python record.get(k, "") on a flattened record: the stored value
(possibly None) when the key is present, "" otherwise. -/
def flatGetD (r : FlatRecord String) (k : String) : Option String :=
  match lookupKV r k with
  | some v => v
  | none => some ""

/-- Python truthiness of record.get(k, "") used in the comprehensions
`[... for record in results if record.get(col)]`. -/
def colTruthy (r : FlatRecord String) (k : String) : Bool :=
  match flatGetD r k with
  | none => false
  | some s => !(s == "")

/-- The comprehension `[record.get(col, "") for record in results if record.get(col)]`. -/
def extractCol (rs : List (FlatRecord String)) (col : String) : List String :=
  (rs.filter (fun r => colTruthy r col)).map (fun r => (flatGetD r col).getD "")

/-- The distinct-value extraction pattern `sorted(list(set(...)))` applied to
the named column; instantiated with column "_value" by get_measurements,
get_fields and get_tags. -/
def extractDistinctValues (rs : List (FlatRecord String)) (col : String) : List String :=
  sortedDistinct (extractCol rs col)

/-- Python key.startswith("_"): the first character is an underscore. -/
def startsUnderscore (k : String) : Bool :=
  match k.data with
  | [] => false
  | c :: _ => c == '_'

/-- The reserved-column test of execute_query:
`key.startswith("_") or key in ["result", "table"]`. -/
def reservedKey (k : String) : Bool :=
  startsUnderscore k || k == "result" || k == "table"

/-- Does the row carry all four standard columns? The influxdb-client
FluxRecord getters (get_time() etc.) delegate to values.__getitem__ and
raise KeyError on a missing column, so this is exactly the condition under
which the record_dict literal of execute_query can be built. -/
def hasStandardCols {V : Type} (row : Row V) : Bool :=
  (pyGet row "_time").isSome && (pyGet row "_measurement").isSome &&
    (pyGet row "_field").isSome && (pyGet row "_value").isSome

/-- The record_dict built for a row that carries the four standard
columns: the four standard entries, then every non-reserved column copied
over them (Python dict semantics). -/
def flatRowDict {V : Type} (row : Row V) : FlatRecord V :=
  row.foldl (fun d p => if reservedKey p.1 then d else dictInsert d p.1 (some p.2))
    [("time", pyGet row "_time"), ("measurement", pyGet row "_measurement"),
     ("field", pyGet row "_field"), ("value", pyGet row "_value")]

/-- The per-row body of execute_query: record.get_time() /
get_measurement() / get_field() / get_value() are strict — each delegates
to values.__getitem__ — so the first standard column missing from the row
raises KeyError with that key (the dict literal evaluates them in source
order); only when all four are present is record_dict built and the
non-reserved columns copied over it. -/
def recordToFlat {V : Type} (row : Row V) : Except String (FlatRecord V) :=
  match pyGet row "_time" with
  | none => .error "_time"
  | some timeV =>
    match pyGet row "_measurement" with
    | none => .error "_measurement"
    | some measV =>
      match pyGet row "_field" with
      | none => .error "_field"
      | some fieldV =>
        match pyGet row "_value" with
        | none => .error "_value"
        | some valueV =>
          .ok (row.foldl
            (fun d p => if reservedKey p.1 then d else dictInsert d p.1 (some p.2))
            [("time", some timeV), ("measurement", some measV),
             ("field", some fieldV), ("value", some valueV)])

/-- One iteration of the inner loop of execute_query: append the row's
record, or propagate the KeyError that aborts the loops. -/
def flattenStep {V : Type} (acc : Except String (List (FlatRecord V))) (r : Row V) :
    Except String (List (FlatRecord V)) :=
  match acc with
  | .error e => .error e
  | .ok recs =>
    match recordToFlat r with
    | .ok rec => .ok (recs ++ [rec])
    | .error k => .error k

/-- The two nested loops of execute_query accumulating `records`: a
KeyError raised for any row aborts the whole flattening. -/
def flatten {V : Type} (tables : List (Table V)) : Except String (List (FlatRecord V)) :=
  tables.foldl (fun acc t => t.foldl flattenStep acc) (.ok [])

theorem recordToFlat_of_hasStandardCols {V : Type} (row : Row V)
    (h : hasStandardCols row = true) : recordToFlat row = .ok (flatRowDict row) := by
  unfold hasStandardCols at h
  simp only [Bool.and_eq_true, Option.isSome_iff_exists] at h
  obtain ⟨⟨⟨⟨tv, h1⟩, mv, h2⟩, fv, h3⟩, vv, h4⟩ := h
  unfold recordToFlat flatRowDict
  rw [h1, h2, h3, h4]

theorem foldl_flattenStep_ok {V : Type} (t : Table V) :
    ∀ recs, (∀ r ∈ t, hasStandardCols r = true) →
      t.foldl flattenStep (Except.ok recs) = .ok (recs ++ t.map flatRowDict) := by
  induction t with
  | nil =>
    intro recs h
    simp
  | cons r t' ih =>
    intro recs h
    simp only [List.foldl_cons, List.map_cons]
    rw [show flattenStep (Except.ok recs) r = .ok (recs ++ [flatRowDict r]) from by
      unfold flattenStep
      rw [recordToFlat_of_hasStandardCols r (h r (List.mem_cons_self _ _))]]
    rw [ih (recs ++ [flatRowDict r]) (fun r' hr' => h r' (List.mem_cons_of_mem _ hr'))]
    simp [List.append_assoc]

theorem flatten_foldl_ok {V : Type} :
    ∀ (tables : List (Table V)) (recs : List (FlatRecord V)),
      (∀ t ∈ tables, ∀ r ∈ t, hasStandardCols r = true) →
      tables.foldl (fun acc t => t.foldl flattenStep acc) (Except.ok recs)
        = .ok (recs ++ tables.flatMap (fun t => t.map flatRowDict)) := by
  intro tables
  induction tables with
  | nil =>
    intro recs h
    simp
  | cons t ts ih =>
    intro recs h
    simp only [List.foldl_cons, List.flatMap_cons]
    rw [foldl_flattenStep_ok t recs (h t (List.mem_cons_self _ _))]
    rw [ih (recs ++ t.map flatRowDict) (fun t' ht' => h t' (List.mem_cons_of_mem _ ht'))]
    simp [List.append_assoc]

/-- When every row of every table carries the four standard columns,
flattening succeeds and emits exactly one record per row, in row order
within each table and table order across the sequence. -/
theorem flatten_ok_of_complete {V : Type} (tables : List (Table V))
    (h : ∀ t ∈ tables, ∀ r ∈ t, hasStandardCols r = true) :
    flatten tables = .ok (tables.flatMap (fun t => t.map flatRowDict)) := by
  have := flatten_foldl_ok tables [] h
  simpa [flatten] using this

theorem foldl_flattenStep_members {V : Type} :
    ∀ (t : Table V) (acc : Except String (List (FlatRecord V))) (recs : List (FlatRecord V)),
      t.foldl flattenStep acc = .ok recs →
      ∀ rec ∈ recs, (∃ recs₀, acc = .ok recs₀ ∧ rec ∈ recs₀) ∨
        ∃ row, recordToFlat row = .ok rec := by
  intro t
  induction t with
  | nil =>
    intro acc recs h rec hrec
    exact Or.inl ⟨recs, h, hrec⟩
  | cons r t' ih =>
    intro acc recs h rec hrec
    rcases ih (flattenStep acc r) recs h rec hrec with ⟨recs₀, hacc, hmem⟩ | hrow
    · cases hacc' : acc with
      | error e =>
        rw [show flattenStep acc r = .error e by rw [hacc']; rfl] at hacc
        cases hacc
      | ok recs₁ =>
        cases hr : recordToFlat r with
        | error k =>
          rw [show flattenStep acc r = .error k by rw [hacc']; unfold flattenStep; rw [hr]] at hacc
          cases hacc
        | ok rec' =>
          rw [show flattenStep acc r = .ok (recs₁ ++ [rec']) by
            rw [hacc']; unfold flattenStep; rw [hr]] at hacc
          injection hacc with hacc
          rw [← hacc] at hmem
          rcases List.mem_append.mp hmem with hmem | hmem
          · exact Or.inl ⟨recs₁, rfl, hmem⟩
          · rcases List.mem_singleton.mp hmem with rfl
            exact Or.inr ⟨r, hr⟩

    · exact Or.inr hrow

theorem flatten_members {V : Type} :
    ∀ (tables : List (Table V)) (acc : Except String (List (FlatRecord V)))
      (recs : List (FlatRecord V)),
      tables.foldl (fun acc t => t.foldl flattenStep acc) acc = .ok recs →
      ∀ rec ∈ recs, (∃ recs₀, acc = .ok recs₀ ∧ rec ∈ recs₀) ∨
        ∃ row, recordToFlat row = .ok rec := by
  intro tables
  induction tables with
  | nil =>
    intro acc recs h rec hrec
    exact Or.inl ⟨recs, h, hrec⟩
  | cons t ts ih =>
    intro acc recs h rec hrec
    rcases ih (t.foldl flattenStep acc) recs h rec hrec with ⟨recs₀, hacc, hmem⟩ | hrow
    · rcases foldl_flattenStep_members t acc recs₀ hacc rec hmem with h1 | h1
      · exact Or.inl h1
      · exact Or.inr h1
    · exact Or.inr hrow

/-- Every record of a successful flattening comes from some row's
successful record_dict construction. -/
theorem flatten_ok_members {V : Type} (tables : List (Table V))
    (recs : List (FlatRecord V)) (h : flatten tables = .ok recs) :
    ∀ rec ∈ recs, ∃ row, recordToFlat row = .ok rec := by
  intro rec hrec
  rcases flatten_members tables (.ok []) recs (by simpa [flatten] using h) rec hrec with
    ⟨recs₀, hacc, hmem⟩ | h2
  · injection hacc with hacc
    rw [← hacc] at hmem
    cases hmem
  · exact h2

/-! ## Python exceptions -/

/-- The exception kinds relevant to the embedded code; key k is
KeyError(k), raised by the strict FluxRecord getters. -/
inductive PyErr where
  | runtime (msg : String)
  | api (msg : String)
  | connection (msg : String)
  | key (k : String)
  | other (msg : String)
deriving DecidableEq

/-- Python str(e) on an exception, as used by the boundary handlers;
str(KeyError(k)) is the repr of the key. -/
def pyErrStr : PyErr → String
  | .runtime m => m
  | .api m => m
  | .connection m => m
  | .key k => "\x27" ++ k ++ "\x27"
  | .other m => m

/-! ## Query Executor: InfluxDBManager.execute_query -/

/-- Embedding of InfluxDBManager.execute_query. The _query_api handle is
an Option Unit (none: never connected / disconnected); the engine oracle
stands for self._query_api.query. The source raises RuntimeError
"Not connected to InfluxDB" when the handle is unbound, wraps ApiException
into RuntimeError("Query failed: ..."), and re-raises anything else —
including the KeyError the flattening loop raises for a row missing one of
the four standard columns (the generic handler at the end of the try block
logs and re-raises it). -/
def executeQuery {V : Type} (queryApi : Option Unit)
    (engine : String → Except PyErr (List (Table V))) (q : String) :
    Except PyErr (List (FlatRecord V)) :=
  match queryApi with
  | none => .error (.runtime "Not connected to InfluxDB")
  | some _ =>
    match engine q with
    | .ok tables =>
      match flatten tables with
      | .ok records => .ok records
      | .error k => .error (.key k)
    | .error (.api m) => .error (.runtime ("Query failed: " ++ m))
    | .error e => .error e

/-! ## Connection Manager: InfluxDBManager.test_connection -/

/-- The health object returned by client.health(); message may be None. -/
structure HealthRec where
  status : String
  message : Option String
deriving DecidableEq

/-- The failure record of test_connection (its except branch). -/
def errStatusRecord (cfg : InfluxDBConfig) (msg : String) : List (String × String) :=
  [("status", "error"), ("message", msg),
   ("url", cfg.url), ("org", cfg.org), ("bucket", cfg.bucket)]

/-- Embedding of InfluxDBManager.test_connection. `bound` says whether
self._client is already set; `connectR` is the outcome of self.connect()
(only consulted when unbound); `healthR` is the outcome of
self._client.health(), which may itself raise or return None. -/
def managerTestConnection (cfg : InfluxDBConfig) (bound : Bool)
    (connectR : Except String Unit) (healthR : Except String (Option HealthRec)) :
    List (String × String) :=
  let clientR : Except String Unit := if bound then .ok () else connectR
  match clientR with
  | .error e => errStatusRecord cfg e
  | .ok _ =>
    match healthR with
    | .error e => errStatusRecord cfg e
    | .ok h =>
      [("status", "connected"),
       ("health",
         match h with
         | some hr => hr.status
         | none => "unknown"),
       ("message",
         match h with
         | some hr =>
           match hr.message with
           | some m => if m == "" then "Connection successful" else m
           | none => "Connection successful"
         | none => "Connection successful"),
       ("url", cfg.url), ("org", cfg.org), ("bucket", cfg.bucket)]

/-! ## Query Builder: the f-string templates, byte for byte -/

/-- The query of get_measurements. -/
def getMeasurementsQuery (bucket : String) : String :=
  "\n        import \"influxdata/influxdb/schema\"\n        \n        schema.measurements(bucket: \"" ++ bucket ++ "\")\n        "

/-- The query of get_fields. -/
def getFieldsQuery (bucket measurement : String) : String :=
  "\n        import \"influxdata/influxdb/schema\"\n        \n        schema.fieldKeys(\n            bucket: \"" ++ bucket ++ "\",\n            predicate: (r) => r._measurement == \"" ++ measurement ++ "\"\n        )\n        "

/-- The tag-keys query of get_tags. -/
def getTagsKeysQuery (bucket measurement : String) : String :=
  "\n        import \"influxdata/influxdb/schema\"\n        \n        schema.tagKeys(\n            bucket: \"" ++ bucket ++ "\",\n            predicate: (r) => r._measurement == \"" ++ measurement ++ "\"\n        )\n        "

/-- The per-key tag-values query of get_tags. -/
def getTagValuesQuery (bucket tagKey measurement : String) : String :=
  "\n                    import \"influxdata/influxdb/schema\"\n                    \n                    schema.tagValues(\n                        bucket: \"" ++ bucket ++ "\",\n                        tag: \"" ++ tagKey ++ "\",\n                        predicate: (r) => r._measurement == \"" ++ measurement ++ "\"\n                    )\n                    "

/-- The query built by get_recent_data (note: limit before sort, exactly
as in the source). -/
def getRecentDataQuery (bucket measurement : String) (limit : Int) (timeRange : String) : String :=
  "\n        from(bucket: \"" ++ bucket ++ "\")\n            |> range(start: " ++ timeRange ++ ")\n            |> filter(fn: (r) => r._measurement == \"" ++ measurement ++ "\")\n            |> limit(n: " ++ toString limit ++ ")\n            |> sort(columns: [\"_time\"], desc: true)\n        "

/-- The time_filter local of query_data_range. -/
def qdrTimeFilter (startTime : String) (endTime : Option String) : String :=
  "range(start: " ++ startTime ++
    (if truthyOptStr endTime then ", stop: " ++ endTime.getD "" else "") ++ ")"

/-- The filters local of query_data_range: measurement equality, then the
parenthesized OR-group of field equalities (when fields is truthy), then
one tag equality per tags entry (when tags is truthy). -/
def qdrFilters (measurement : String) (fields : Option (List String))
    (tags : Option (List (String × String))) : List String :=
  ["r._measurement == \"" ++ measurement ++ "\""] ++
    (if truthyOptList fields then
      ["(" ++ String.intercalate " or "
          ((fields.getD []).map (fun f => "r._field == \"" ++ f ++ "\"")) ++ ")"]
     else []) ++
    (if truthyOptList tags then
      (tags.getD []).map (fun p => "r." ++ p.1 ++ " == \"" ++ p.2 ++ "\"")
     else [])

/-- The filter_clause local: ' and '.join(filters). -/
def qdrFilterClause (measurement : String) (fields : Option (List String))
    (tags : Option (List (String × String))) : String :=
  String.intercalate " and " (qdrFilters measurement fields tags)

/-- The query local of query_data_range before the optional limit suffix. -/
def queryDataRangeBase (bucket measurement startTime : String) (endTime : Option String)
    (fields : Option (List String)) (tags : Option (List (String × String))) : String :=
  "\n        from(bucket: \"" ++ bucket ++ "\")\n            |> " ++ qdrTimeFilter startTime endTime ++
    "\n            |> filter(fn: (r) => " ++ qdrFilterClause measurement fields tags ++
    ")\n            |> sort(columns: [\"_time\"], desc: true)\n        "

/-- The final query of query_data_range: the limit pipe is appended only
when limit is truthy. -/
def queryDataRangeQuery (bucket measurement startTime : String) (endTime : Option String)
    (fields : Option (List String)) (tags : Option (List (String × String)))
    (limit : Option Int) : String :=
  queryDataRangeBase bucket measurement startTime endTime fields tags ++
    (if truthyOptInt limit then "\n    |> limit(n: " ++ toString (limit.getD 0) ++ ")" else "")

/-! ## Schema discovery and data operations -/

/-- Embedding of InfluxDBManager.get_measurements: run the schema query,
extract column "_value" from the (already flattened) results, dedup and
sort; any exception yields []. -/
def getMeasurements (api : Option Unit) (engine : String → Except PyErr (List (Table String)))
    (bucket : String) : List String :=
  match executeQuery api engine (getMeasurementsQuery bucket) with
  | .ok results => sortedDistinct (extractCol results "_value")
  | .error _ => []

/-- Embedding of InfluxDBManager.get_fields; same shape as get_measurements. -/
def getFields (api : Option Unit) (engine : String → Except PyErr (List (Table String)))
    (bucket measurement : String) : List String :=
  match executeQuery api engine (getFieldsQuery bucket measurement) with
  | .ok results => sortedDistinct (extractCol results "_value")
  | .error _ => []

/-- Embedding of InfluxDBManager.get_tags: discover tag keys, then for
each key run the tag-values query; a per-key failure stores [] for that
key; a failure of the key query yields the empty dict. -/
def getTags (api : Option Unit) (engine : String → Except PyErr (List (Table String)))
    (bucket measurement : String) : List (String × List String) :=
  match executeQuery api engine (getTagsKeysQuery bucket measurement) with
  | .error _ => []
  | .ok results =>
    let tagKeys := extractCol results "_value"
    tagKeys.foldl (fun tags tagKey =>
      if tagKey == "" then tags
      else
        match executeQuery api engine (getTagValuesQuery bucket tagKey measurement) with
        | .ok tagResults => dictInsert tags tagKey (sortedDistinct (extractCol tagResults "_value"))
        | .error _ => dictInsert tags tagKey []) []

/-- Embedding of InfluxDBManager.get_recent_data. -/
def getRecentData (api : Option Unit) (engine : String → Except PyErr (List (Table String)))
    (bucket measurement : String) (limit : Int) (timeRange : String) :
    Except PyErr (List (FlatRecord String)) :=
  executeQuery api engine (getRecentDataQuery bucket measurement limit timeRange)

/-- Embedding of InfluxDBManager.query_data_range. -/
def queryDataRange (api : Option Unit) (engine : String → Except PyErr (List (Table String)))
    (bucket measurement startTime : String) (endTime : Option String)
    (fields : Option (List String)) (tags : Option (List (String × String)))
    (limit : Option Int) : Except PyErr (List (FlatRecord String)) :=
  executeQuery api engine (queryDataRangeQuery bucket measurement startTime endTime fields tags limit)

/-! ## Server layer (server.py): tool results and boundary operations -/

/-- Values occurring in the tool-result dicts of server.py. -/
inductive TVal where
  | s (v : String)
  | n (v : Int)
  | ls (v : List String)
  | recs (v : List (FlatRecord String))
deriving DecidableEq

/-- The methods actually defined on class InfluxDBManager in
influxdb_client.py. Attribute access on any other name raises
AttributeError. -/
def managerMethodNames : List String :=
  ["__init__", "__enter__", "__exit__", "connect", "disconnect", "test_connection",
   "execute_query", "get_measurements", "get_fields", "get_tags",
   "get_recent_data", "query_data_range"]

/-- Python str(AttributeError) for a missing InfluxDBManager attribute. -/
def managerAttrError (name : String) : String :=
  "\x27InfluxDBManager\x27 object has no attribute \x27" ++ name ++ "\x27"

/-- Attribute lookup followed by a call: returns the supplied result when
the method exists, raises AttributeError otherwise. -/
def managerCall {α : Type} (name : String) (r : α) : Except String α :=
  if managerMethodNames.contains name then .ok r
  else .error (managerAttrError name)

/-- Embedding of the test_connection tool of server.py: get_influxdb_manager
may raise (config load or initial connect failure); on success the
manager probe record is returned unchanged; any raised error is caught
and converted to a two-field error dict. -/
def serverTestConnection (getMgrR : Except String Unit)
    (probe : List (String × String)) : List (String × String) :=
  match getMgrR with
  | .ok _ => probe
  | .error e => [("status", "error"), ("message", e)]

/-- Embedding of the list_buckets tool: it calls manager.list_buckets(),
an attribute that does not exist on InfluxDBManager; bucketsV is the value
the call would produce if the attribute existed. -/
def serverListBuckets (getMgrR : Except String Unit) (bucketsV : List String) :
    List (String × TVal) :=
  match getMgrR with
  | .error e => [("status", .s "error"), ("message", .s e)]
  | .ok _ =>
    match managerCall "list_buckets" bucketsV with
    | .error e => [("status", .s "error"), ("message", .s e)]
    | .ok bs => [("status", .s "success"), ("buckets", .ls bs), ("count", .n (bs.length : Int))]

/-- Embedding of the list_measurements tool: it calls
manager.list_measurements(bucket), an attribute that does not exist on
InfluxDBManager; measurementsV is the value the call would produce if the
attribute existed. -/
def serverListMeasurements (getMgrR : Except String Unit) (bucket : String)
    (measurementsV : List String) : List (String × TVal) :=
  match getMgrR with
  | .error e => [("status", .s "error"), ("message", .s e)]
  | .ok _ =>
    match managerCall "list_measurements" measurementsV with
    | .error e => [("status", .s "error"), ("message", .s e)]
    | .ok ms => [("status", .s "success"), ("measurements", .ls ms), ("count", .n (ms.length : Int))]

/-- Embedding of the execute_flux_query tool: manager.execute_query is a
real method; success wraps the flattened data, any raised error is caught
into a status/message/query dict. -/
def serverExecuteFluxQuery (getMgrR : Except String Unit) (api : Option Unit)
    (engine : String → Except PyErr (List (Table String))) (q : String) :
    List (String × TVal) :=
  match getMgrR with
  | .error e => [("status", .s "error"), ("message", .s e), ("query", .s q)]
  | .ok _ =>
    match executeQuery api engine q with
    | .ok data =>
      [("status", .s "success"), ("query", .s q), ("data", .recs data),
       ("record_count", .n (data.length : Int))]
    | .error pe => [("status", .s "error"), ("message", .s (pyErrStr pe)), ("query", .s q)]

/-- The sort directive emitted by both data-query builders. -/
def sortDirectiveStr : String := "|> sort(columns: [\"_time\"], desc: true)"

/-- Does a limit clause for n occur strictly after the (first) sort
directive in the query? -/
def sortThenLimitB (q : String) (n : Int) : Bool :=
  match afterOcc sortDirectiveStr.data q.data with
  | none => false
  | some rest => occursIn ("|> limit(n: " ++ toString n ++ ")").data rest

/-! ## Claim C1: execute does not auto-connect -/

/-- Claim C1 as stated, in the spec words: for every query, execute
invoked while no connection handle is bound auto-connects, and it raises
only for connection or query failures, never for merely not having been
connected yet — equivalently, the not-connected RuntimeError is never the
outcome of execute_query. -/
def specExecNeverNotConnectedError : Prop :=
  ∀ (api : Option Unit) (engine : String → Except PyErr (List (Table String))) (q : String),
    executeQuery api engine q ≠ Except.error (.runtime "Not connected to InfluxDB")

/-- Claim C1 counterexample: with no handle bound and an engine that would
answer every query successfully, execute_query still raises RuntimeError
"Not connected to InfluxDB" — it raises for merely not having been
connected yet and never auto-connects, refuting the claim as stated. -/
theorem c1_counterexample : ¬ specExecNeverNotConnectedError := by
  intro h
  exact h none (fun _ => .ok []) "q" rfl

/-- Claim C1 (amended): execute_query does not auto-connect; with no
bound handle it raises RuntimeError "Not connected to InfluxDB" whatever
the engine would answer. With a bound handle it returns the flattened
records when flattening the engine's tables succeeds (every row carries
the four standard columns); a row missing one makes the strict FluxRecord
getters raise KeyError, which the generic handler re-raises; an
ApiException is wrapped into RuntimeError("Query failed: ..."), and every
other exception (connection errors included) is re-raised unchanged. -/
theorem c1_execute_query_behaviour :
    ∀ (engine : String → Except PyErr (List (Table String))) (q : String),
      executeQuery none engine q = Except.error (.runtime "Not connected to InfluxDB") ∧
      (∀ ts recs, engine q = .ok ts → flatten ts = .ok recs →
        executeQuery (some ()) engine q = .ok recs) ∧
      (∀ ts k, engine q = .ok ts → flatten ts = .error k →
        executeQuery (some ()) engine q = .error (.key k)) ∧
      (∀ m, engine q = .error (.api m) →
        executeQuery (some ()) engine q = .error (.runtime ("Query failed: " ++ m))) ∧
      (∀ m, engine q = .error (.connection m) →
        executeQuery (some ()) engine q = .error (.connection m)) ∧
      (∀ m, engine q = .error (.runtime m) →
        executeQuery (some ()) engine q = .error (.runtime m)) ∧
      (∀ k, engine q = .error (.key k) →
        executeQuery (some ()) engine q = .error (.key k)) ∧
      (∀ m, engine q = .error (.other m) →
        executeQuery (some ()) engine q = .error (.other m)) := by
  intro engine q
  refine ⟨rfl, ?_, ?_, ?_, ?_, ?_, ?_, ?_⟩
  · intro ts recs h1 h2
    simp [executeQuery, h1, h2]
  · intro ts k h1 h2
    simp [executeQuery, h1, h2]
  · intro m h
    simp [executeQuery, h]
  · intro m h
    simp [executeQuery, h]
  · intro m h
    simp [executeQuery, h]
  · intro k h
    simp [executeQuery, h]
  · intro m h
    simp [executeQuery, h]

/-- Claim C1 witness: the amended theorem applied at a concrete engine
whose answer is an ApiException. -/
theorem c1_execute_query_behaviour_witness :
    executeQuery (some ())
      (fun _ => (Except.error (.api "boom") : Except PyErr (List (Table String)))) "q"
      = Except.error (.runtime ("Query failed: " ++ "boom")) :=
  (c1_execute_query_behaviour
    (fun _ => (Except.error (.api "boom") : Except PyErr (List (Table String)))) "q").2.2.2.1
    "boom" rfl

/-! ## Claim C8: the list_measurements tool calls a method that does not exist -/

/-- Claim C8: server.list_measurements calls manager.list_measurements(bucket),
but class InfluxDBManager defines no such method (its discovery method is
get_measurements, without a bucket parameter); the call raises
AttributeError, the tool catches it, and the result is always the error
record — never the claimed success record. -/
theorem c8_list_measurements_attribute_error :
    ∀ (bucket : String) (measurementsV : List String),
      serverListMeasurements (.ok ()) bucket measurementsV =
        [("status", TVal.s "error"),
         ("message", TVal.s (managerAttrError "list_measurements"))] ∧
      lookupKV (serverListMeasurements (.ok ()) bucket measurementsV) "status"
        = some (TVal.s "error") := by
  intro bucket measurementsV
  exact ⟨rfl, rfl⟩

/-! ## Claim C10: schema discovery returns empty on any exception -/

/-- Claim C10: get_measurements, get_fields and get_tags catch every
exception from query execution and return [] (resp. the empty mapping):
both when no connection is bound and when the engine raises; the result is
then equal to the result on a genuinely empty schema, so the two cases are
indistinguishable at this layer. -/
theorem c10_schema_discovery_empty_on_error :
    ∀ (engine : String → Except PyErr (List (Table String))) (bucket measurement : String)
      (e : PyErr),
      getMeasurements none engine bucket = [] ∧
      getFields none engine bucket measurement = [] ∧
      getTags none engine bucket measurement = [] ∧
      (engine (getMeasurementsQuery bucket) = .error e →
        getMeasurements (some ()) engine bucket = []) ∧
      (engine (getFieldsQuery bucket measurement) = .error e →
        getFields (some ()) engine bucket measurement = []) ∧
      (engine (getTagsKeysQuery bucket measurement) = .error e →
        getTags (some ()) engine bucket measurement = []) ∧
      (engine (getMeasurementsQuery bucket) = .ok [] →
        getMeasurements (some ()) engine bucket = []) := by
  intro engine bucket measurement e
  refine ⟨rfl, rfl, rfl, ?_, ?_, ?_, ?_⟩
  · intro h
    cases e <;> simp [getMeasurements, executeQuery, h]
  · intro h
    cases e <;> simp [getFields, executeQuery, h]
  · intro h
    cases e <;> simp [getTags, executeQuery, h]
  · intro h
    simp [getMeasurements, executeQuery, h]
    rfl

/-- Claim C10 witness: a concrete engine failure and a concrete empty
result coincide. -/
theorem c10_schema_discovery_empty_on_error_witness :
    getMeasurements (some ()) (fun _ => Except.error (.other "boom")) "b" = [] :=
  (c10_schema_discovery_empty_on_error (fun _ => Except.error (.other "boom"))
    "b" "m" (.other "boom")).2.2.2.1 rfl

/-! ## Claim C6: boundary tools wrap every caught error -/

/-- Claim C6: the modelled boundary tools (list_buckets, list_measurements,
execute_flux_query) always return a mapping carrying a "status" key that is
either "success" or "error", and convert every caught error into a record
with status "error" and the stringified message (execute_flux_query also
echoes the query); no raised fault escapes. -/
theorem c6_boundary_error_wrapping :
    ∀ (e q bucket : String) (bucketsV measurementsV : List String)
      (gm : Except String Unit) (api : Option Unit)
      (engine : String → Except PyErr (List (Table String))),
      serverListBuckets (.error e) bucketsV
        = [("status", TVal.s "error"), ("message", TVal.s e)] ∧
      serverListMeasurements (.error e) bucket measurementsV
        = [("status", TVal.s "error"), ("message", TVal.s e)] ∧
      serverExecuteFluxQuery (.error e) api engine q
        = [("status", TVal.s "error"), ("message", TVal.s e), ("query", TVal.s q)] ∧
      (∃ st, lookupKV (serverListBuckets gm bucketsV) "status" = some (TVal.s st) ∧
        (st = "success" ∨ st = "error")) ∧
      (∃ st, lookupKV (serverListMeasurements gm bucket measurementsV) "status"
          = some (TVal.s st) ∧ (st = "success" ∨ st = "error")) ∧
      (∃ st, lookupKV (serverExecuteFluxQuery gm api engine q) "status"
          = some (TVal.s st) ∧ (st = "success" ∨ st = "error")) ∧
      (∀ pe, executeQuery api engine q = .error pe →
        serverExecuteFluxQuery (.ok ()) api engine q
          = [("status", TVal.s "error"), ("message", TVal.s (pyErrStr pe)),
             ("query", TVal.s q)]) ∧
      (∀ data, executeQuery api engine q = .ok data →
        serverExecuteFluxQuery (.ok ()) api engine q
          = [("status", TVal.s "success"), ("query", TVal.s q), ("data", TVal.recs data),
             ("record_count", TVal.n (data.length : Int))]) := by
  intro e q bucket bucketsV measurementsV gm api engine
  refine ⟨rfl, rfl, rfl, ?_, ?_, ?_, ?_, ?_⟩
  · cases gm with
    | error e' => exact ⟨"error", rfl, Or.inr rfl⟩
    | ok u => exact ⟨"error", rfl, Or.inr rfl⟩
  · cases gm with
    | error e' => exact ⟨"error", rfl, Or.inr rfl⟩
    | ok u => exact ⟨"error", rfl, Or.inr rfl⟩
  · cases gm with
    | error e' => exact ⟨"error", rfl, Or.inr rfl⟩
    | ok u =>
      cases hE : executeQuery api engine q with
      | ok data =>
        refine ⟨"success", ?_, Or.inl rfl⟩
        simp [serverExecuteFluxQuery, hE, lookupKV]
      | error pe =>
        refine ⟨"error", ?_, Or.inr rfl⟩
        simp [serverExecuteFluxQuery, hE, lookupKV]
  · intro pe h
    simp [serverExecuteFluxQuery, h]
  · intro data h
    simp [serverExecuteFluxQuery, h]

/-- Claim C6 witness: the not-connected failure of execute_flux_query is
caught and wrapped at a concrete input. -/
theorem c6_boundary_error_wrapping_witness :
    serverExecuteFluxQuery (.ok ()) none
      (fun _ => (Except.ok [] : Except PyErr (List (Table String)))) "q"
      = [("status", TVal.s "error"), ("message", TVal.s "Not connected to InfluxDB"),
         ("query", TVal.s "q")] :=
  (c6_boundary_error_wrapping "e" "q" "b" [] [] (.ok ()) none
    (fun _ => (Except.ok [] : Except PyErr (List (Table String))))).2.2.2.2.2.2.1
    (.runtime "Not connected to InfluxDB") rfl

/-! ## Claim C9: distinct-value extraction -/

theorem extractCol_mem {x : String} {rs : List (FlatRecord String)} {col : String}
    (h : x ∈ extractCol rs col) : x ≠ "" ∧ ∃ r ∈ rs, flatGetD r col = some x := by
  rcases List.mem_map.mp h with ⟨r, hr, hval⟩
  rcases List.mem_filter.mp hr with ⟨hrs, htr⟩
  cases hfg : flatGetD r col with
  | none => simp [colTruthy, hfg] at htr
  | some s =>
    have hs : s ≠ "" := by simpa [colTruthy, hfg] using htr
    have hxs : s = x := by simpa [hfg] using hval
    subst hxs
    exact ⟨hs, r, hrs, hfg⟩

/-- Claim C9: for every record list and every column, the extraction
sorted(list(set([r.get(col, "") for r in rs if r.get(col)]))) has no
duplicates, is sorted ascending (lexicographically), and contains only
non-empty values that some record actually holds in that column. -/
theorem c9_extract_distinct_values :
    ∀ (rs : List (FlatRecord String)) (col : String),
      (extractDistinctValues rs col).Nodup ∧
      List.Sorted (· ≤ ·) (extractDistinctValues rs col) ∧
      List.Forall (fun x => x ≠ "" ∧ ∃ r ∈ rs, flatGetD r col = some x)
        (extractDistinctValues rs col) := by
  intro rs col
  refine ⟨sortedDistinct_nodup _, sortedDistinct_sorted _, ?_⟩
  rw [List.forall_iff_forall_mem]
  intro x hx
  exact extractCol_mem (sortedDistinct_mem.mp hx)

/-! ## Claim C5: the probe returns a record, never raises -/

/-- Claim C5 as stated, in the spec words: every failure outcome of the
boundary probe yields a record that carries the url (and org, bucket)
fields besides status and message. -/
def specProbeFailureHasEndpoint : Prop :=
  ∀ (gm : Except String Unit) (cfg : InfluxDBConfig) (bound : Bool)
    (connectR : Except String Unit) (healthR : Except String (Option HealthRec)),
    lookupKV (serverTestConnection gm (managerTestConnection cfg bound connectR healthR))
      "status" = some "error" →
    (lookupKV (serverTestConnection gm (managerTestConnection cfg bound connectR healthR))
      "url").isSome = true

/-- Claim C5 counterexample: when get_influxdb_manager itself raises (for
example the initial connect fails on the first call), the test_connection
tool catches it and returns only status and message — no url, org or
bucket fields — refuting the claim as stated. -/
theorem c5_counterexample : ¬ specProbeFailureHasEndpoint := by
  intro h
  have := h (.error "Failed to connect") ⟨"u", "t", "o", "b", 10, true⟩ false (.ok ())
    (.ok none) rfl
  exact absurd this (by decide)

/-- Claim C5 (amended): the probe never raises and always returns a status
record. The manager-level test_connection always carries url, org and
bucket (on success with status "connected", health and message; on any
failure inside it with status "error" and the message); the boundary tool
returns that record unchanged when the manager is available, and degrades
to a two-field status/message error record when acquiring the manager
itself fails. -/
theorem c5_probe_always_returns_record :
    ∀ (cfg : InfluxDBConfig) (bound : Bool) (connectR : Except String Unit)
      (healthR : Except String (Option HealthRec)) (e : String),
      (lookupKV (managerTestConnection cfg bound connectR healthR) "status"
          = some "connected" ∨
       lookupKV (managerTestConnection cfg bound connectR healthR) "status"
          = some "error") ∧
      lookupKV (managerTestConnection cfg bound connectR healthR) "url" = some cfg.url ∧
      lookupKV (managerTestConnection cfg bound connectR healthR) "org" = some cfg.org ∧
      lookupKV (managerTestConnection cfg bound connectR healthR) "bucket" = some cfg.bucket ∧
      (lookupKV (managerTestConnection cfg bound connectR healthR) "message").isSome = true ∧
      managerTestConnection cfg false (.error e) healthR = errStatusRecord cfg e ∧
      (∀ e', healthR = .error e' → bound = true →
        managerTestConnection cfg bound connectR healthR = errStatusRecord cfg e') ∧
      serverTestConnection (.ok ()) (managerTestConnection cfg bound connectR healthR)
        = managerTestConnection cfg bound connectR healthR ∧
      serverTestConnection (.error e) (managerTestConnection cfg bound connectR healthR)
        = [("status", "error"), ("message", e)] := by
  intro cfg bound connectR healthR e
  have hshape : (∃ msg, managerTestConnection cfg bound connectR healthR
        = errStatusRecord cfg msg) ∨
      (∃ hv mv, managerTestConnection cfg bound connectR healthR =
        [("status", "connected"), ("health", hv), ("message", mv),
         ("url", cfg.url), ("org", cfg.org), ("bucket", cfg.bucket)]) := by
    cases bound with
    | false =>
      cases connectR with
      | error er => exact Or.inl ⟨er, rfl⟩
      | ok u =>
        cases healthR with
        | error er => exact Or.inl ⟨er, rfl⟩
        | ok h => exact Or.inr ⟨_, _, rfl⟩
    | true =>
      cases healthR with
      | error er => exact Or.inl ⟨er, rfl⟩
      | ok h => exact Or.inr ⟨_, _, rfl⟩
  have hhealth : ∀ e', healthR = .error e' → bound = true →
      managerTestConnection cfg bound connectR healthR = errStatusRecord cfg e' := by
    intro e' h1 h2
    subst h2
    subst h1
    rfl
  rcases hshape with ⟨msg, heq⟩ | ⟨hv, mv, heq⟩
  · rw [heq]
    exact ⟨Or.inr rfl, rfl, rfl, rfl, rfl, rfl, by rw [← heq]; exact hhealth, rfl, rfl⟩
  · rw [heq]
    exact ⟨Or.inl rfl, rfl, rfl, rfl, rfl, rfl, by rw [← heq]; exact hhealth, rfl, rfl⟩

/-- Claim C5 witness: the amended theorem applied at a concrete failed
health call. -/
theorem c5_probe_always_returns_record_witness :
    managerTestConnection ⟨"u", "t", "o", "b", 10, true⟩ true (.ok ()) (.error "hboom")
      = errStatusRecord ⟨"u", "t", "o", "b", 10, true⟩ "hboom" :=
  (c5_probe_always_returns_record ⟨"u", "t", "o", "b", 10, true⟩ true (.ok ())
    (.error "hboom") "e").2.2.2.2.2.2.1 "hboom" rfl rfl

/-! ## Claim C7: get_tags never populates any discovered tag key -/

theorem dictInsert_keys_subset {α : Type} (d : List (String × α)) (k : String) (v : α) :
    ∀ p ∈ dictInsert d k v, p.1 = k ∨ p ∈ d := by
  intro p hp
  unfold dictInsert at hp
  by_cases ha : (d.any fun q => q.1 == k) = true
  · rw [if_pos ha] at hp
    rcases List.mem_map.mp hp with ⟨q, hq, hfq⟩
    by_cases hqk : q.1 = k
    · left
      rw [← hfq, if_pos hqk]
    · right
      rw [← hfq, if_neg hqk]
      exact hq
  · rw [if_neg ha] at hp
    rcases List.mem_append.mp hp with hd | htl
    · exact Or.inr hd
    · left
      rcases List.mem_singleton.mp htl with rfl
      rfl

theorem recordToFlat_fold_keys {V : Type} (row : List (String × V))
    (acc : FlatRecord V) (hacc : ∀ p ∈ acc, reservedKey p.1 = false) :
    ∀ p ∈ row.foldl
        (fun d p => if reservedKey p.1 then d else dictInsert d p.1 (some p.2)) acc,
      reservedKey p.1 = false := by
  induction row generalizing acc with
  | nil => exact hacc
  | cons hd tl ih =>
    simp only [List.foldl_cons]
    by_cases hr : reservedKey hd.1 = true
    · rw [if_pos hr]
      exact ih acc hacc
    · rw [if_neg hr]
      refine ih _ ?_
      intro p hp
      rcases dictInsert_keys_subset acc hd.1 (some hd.2) p hp with h1 | h1
      · rw [h1]
        exact Bool.not_eq_true _ ▸ hr
      · exact hacc p h1

/-- No reserved key ever occurs in a successfully flattened record. -/
theorem recordToFlat_ok_keys_not_reserved {V : Type} (row : Row V) (rec : FlatRecord V)
    (h : recordToFlat row = .ok rec) : ∀ p ∈ rec, reservedKey p.1 = false := by
  unfold recordToFlat at h
  cases h1 : pyGet row "_time" with
  | none =>
    rw [h1] at h
    cases h
  | some tv =>
    rw [h1] at h
    cases h2 : pyGet row "_measurement" with
    | none =>
      rw [h2] at h
      cases h
    | some mv =>
      rw [h2] at h
      cases h3 : pyGet row "_field" with
      | none =>
        rw [h3] at h
        cases h
      | some fv =>
        rw [h3] at h
        cases h4 : pyGet row "_value" with
        | none =>
          rw [h4] at h
          cases h
        | some vv =>
          rw [h4] at h
          injection h with h'
          rw [← h']
          refine recordToFlat_fold_keys row _ ?_
          intro p hp
          rcases List.mem_cons.mp hp with rfl | hp
          · rfl
          rcases List.mem_cons.mp hp with rfl | hp
          · rfl
          rcases List.mem_cons.mp hp with rfl | hp
          · rfl
          rcases List.mem_cons.mp hp with rfl | hp
          · rfl
          cases hp

theorem lookupKV_eq_none {α : Type} (d : List (String × α)) (k : String)
    (h : ∀ p ∈ d, p.1 ≠ k) : lookupKV d k = none := by
  induction d with
  | nil => rfl
  | cons hd tl ih =>
    obtain ⟨k₁, v₁⟩ := hd
    have hk : k₁ ≠ k := h (k₁, v₁) (List.mem_cons_self _ _)
    simp only [lookupKV, hk, if_neg, not_false_iff]
    exact ih (fun p hp => h p (List.mem_cons_of_mem _ hp))

/-- The deeper diagnosis behind C7: whenever flattening succeeds, the
records never carry a "_value" column (reserved keys are stripped and the
value is stored under "value"), so the extraction that get_tags,
get_measurements and get_fields perform on column "_value" returns
nothing. -/
theorem extractCol_value_of_flatten_ok (tables : List (Table String))
    (recs : List (FlatRecord String)) (h : flatten tables = .ok recs) :
    extractCol recs "_value" = [] := by
  have hfilter : recs.filter (fun r => colTruthy r "_value") = [] := by
    rw [List.filter_eq_nil_iff]
    intro r hr
    rcases flatten_ok_members tables recs h r hr with ⟨row, hrow⟩
    have hnone : lookupKV r "_value" = none := by
      refine lookupKV_eq_none r "_value" ?_
      intro p hp
      intro hk
      have := recordToFlat_ok_keys_not_reserved row r hrow p hp
      rw [hk] at this
      exact absurd this (by decide)
    simp [colTruthy, flatGetD, hnone]
  unfold extractCol
  rw [hfilter]
  rfl

/-- Engine for the C7 failing input: the tag-keys query discovers tag key
"region", and the tag-values query for it answers "us" (meta-query rows
carry only the _value column, as schema.tagKeys answers do). -/
def engineC7 : String → Except PyErr (List (Table String)) :=
  fun q =>
    if q == getTagsKeysQuery "b" "cpu" then .ok [[[("_value", "region")]]]
    else if q == getTagValuesQuery "b" "region" "cpu" then .ok [[[("_value", "us")]]]
    else .ok []

/-- Variant engine whose meta-query rows additionally carry the four
standard columns, so flattening succeeds instead of raising KeyError. -/
def engineC7full : String → Except PyErr (List (Table String)) :=
  fun q =>
    if q == getTagsKeysQuery "b" "cpu" then
      .ok [[[("_time", "t0"), ("_measurement", "cpu"), ("_field", "f"), ("_value", "region")]]]
    else if q == getTagValuesQuery "b" "region" "cpu" then
      .ok [[[("_time", "t0"), ("_measurement", "cpu"), ("_field", "f"), ("_value", "us")]]]
    else .ok []

/-- Claim C7: contrary to the claim, get_tags drops every discovered tag
key and returns the empty mapping with no "region" entry. At the failing
input (rows carrying only _value, as schema.tagKeys answers do) the strict
FluxRecord getters make execute_query raise KeyError for "_time", caught
by the outer except of get_tags. Even when the meta-query rows carry all
four standard columns so that flattening succeeds, the tag key ends up
under key "value" of the flattened record — there is no "_value" key — so
the extraction that reads "_value" still discovers nothing and get_tags
still returns the empty mapping. -/
theorem c7_get_tags_drops_discovered_keys :
    getTags (some ()) engineC7 "b" "cpu" = [] ∧
    executeQuery (some ()) engineC7 (getTagsKeysQuery "b" "cpu")
      = Except.error (.key "_time") ∧
    lookupKV (getTags (some ()) engineC7 "b" "cpu") "region" = none ∧
    getTags (some ()) engineC7full "b" "cpu" = [] ∧
    lookupKV (getTags (some ()) engineC7full "b" "cpu") "region" = none ∧
    executeQuery (some ()) engineC7full (getTagsKeysQuery "b" "cpu")
      = Except.ok [[("time", some "t0"), ("measurement", some "cpu"),
          ("field", some "f"), ("value", some "region")]] := by
  refine ⟨by decide, by rfl, by decide, by decide, by decide, by rfl⟩

/-! ## Claim C4: the flatten step -/

/-- Claim C4 as stated, in the spec words: in every emitted flattened
record the time key (and likewise measurement, field, value) is taken
from the row's standard underscore column. -/
def specFlattenTimeFromStandard : Prop :=
  ∀ (row : Row String) (rec : FlatRecord String),
    recordToFlat row = .ok rec → lookupKV rec "time" = some (pyGet row "_time")

/-- Claim C4 counterexample: a row that carries all four standard columns
plus a plain (non-reserved) column named "time" flattens successfully, but
the copy loop writes that column over the standard-derived entry — Python
dict assignment overwrites — so the emitted record's "time" no longer
holds the row's _time value, refuting the claim as stated. -/
theorem c4_counterexample : ¬ specFlattenTimeFromStandard := by
  intro h
  have := h
    [("_time", "T1"), ("_measurement", "temp"), ("_field", "avg"),
      ("_value", "21.5"), ("time", "X")]
    [("time", some "X"), ("measurement", some "temp"), ("field", some "avg"),
      ("value", some "21.5")] (by rfl)
  exact absurd this (by decide)

theorem fold_fresh_append {V : Type} :
    ∀ (row : List (String × V)) (acc : FlatRecord V),
      (row.map Prod.fst).Nodup →
      (∀ p ∈ row, reservedKey p.1 = false → (∀ q ∈ acc, q.1 ≠ p.1)) →
      row.foldl (fun d p => if reservedKey p.1 then d else dictInsert d p.1 (some p.2)) acc
        = acc ++ (row.filter (fun p => !reservedKey p.1)).map (fun p => (p.1, some p.2)) := by
  intro row
  induction row with
  | nil =>
    intro acc _ _
    simp
  | cons hd tl ih =>
    intro acc hnd hfresh
    obtain ⟨k₀, v₀⟩ := hd
    have hnd' : (tl.map Prod.fst).Nodup := (List.nodup_cons.mp hnd).2
    have hk₀tl : k₀ ∉ tl.map Prod.fst := (List.nodup_cons.mp hnd).1
    simp only [List.foldl_cons, List.filter_cons]
    by_cases hr : reservedKey k₀ = true
    · rw [show (if reservedKey (k₀, v₀).1 then acc
          else dictInsert acc (k₀, v₀).1 (some (k₀, v₀).2)) = acc from if_pos hr]
      rw [show (!reservedKey (k₀, v₀).1) = false by simp [hr]]
      rw [if_neg (by simp)]
      exact ih acc hnd' (fun p hp hres => hfresh p (List.mem_cons_of_mem _ hp) hres)
    · have hrf : reservedKey k₀ = false := Bool.not_eq_true _ ▸ hr
      rw [show (if reservedKey (k₀, v₀).1 then acc
          else dictInsert acc (k₀, v₀).1 (some (k₀, v₀).2))
          = dictInsert acc k₀ (some v₀) from if_neg hr]
      rw [show (!reservedKey (k₀, v₀).1) = true by simp [hrf]]
      rw [if_pos rfl]
      rw [dictInsert_append_of_fresh acc k₀ (some v₀)
        (fun q hq => hfresh (k₀, v₀) (List.mem_cons_self _ _) hrf q hq)]
      rw [ih (acc ++ [(k₀, some v₀)]) hnd' ?_]
      · simp [List.append_assoc]
      · intro p hp hres q hq
        rcases List.mem_append.mp hq with hq | hq
        · exact hfresh p (List.mem_cons_of_mem _ hp) hres q hq
        · rcases List.mem_singleton.mp hq with rfl
          intro heq
          apply hk₀tl
          have : p.1 ∈ tl.map Prod.fst := List.mem_map_of_mem Prod.fst hp
          simpa [← heq] using this

/-- Claim C4 (amended): provided every row carries the four standard
columns, flatten succeeds and emits exactly one record per row, in row
order within each table and table order across the sequence, with no
sorting or deduplication (otherwise the strict getters raise KeyError at
the first incomplete row and no records are emitted); no reserved key
(underscore-prefixed, result, table) ever appears in any emitted record;
provided additionally a row's column names are distinct and none of its
non-reserved columns is literally named time, measurement, field or
value, its record is exactly the four standard-column entries followed by
the non-reserved columns in row order (without that proviso a copied
column overwrites the standard entry, as the counterexample shows); the
claim's concrete scenario holds. -/
theorem c4_flatten_behaviour :
    ∀ (tables : List (Table String)) (row : Row String),
      ((∀ t ∈ tables, ∀ r ∈ t, hasStandardCols r = true) →
        flatten tables = .ok (tables.flatMap (fun t => t.map flatRowDict))) ∧
      (∀ rec, recordToFlat row = .ok rec → ∀ p ∈ rec, reservedKey p.1 = false) ∧
      (hasStandardCols row = true →
        (row.map Prod.fst).Nodup →
        (∀ p ∈ row, reservedKey p.1 = false →
          p.1 ∉ (["time", "measurement", "field", "value"] : List String)) →
        recordToFlat row = .ok (
          [("time", pyGet row "_time"), ("measurement", pyGet row "_measurement"),
           ("field", pyGet row "_field"), ("value", pyGet row "_value")] ++
            (row.filter (fun p => !reservedKey p.1)).map (fun p => (p.1, some p.2)))) ∧
      (pyGet row "_time" = none → recordToFlat row = .error "_time") ∧
      flatten [[[("_time", "T1"), ("_measurement", "temp"), ("_field", "avg"),
          ("_value", "21.5"), ("region", "us"), ("_table", "0")]]]
        = .ok [[("time", some "T1"), ("measurement", some "temp"), ("field", some "avg"),
            ("value", some "21.5"), ("region", some "us")]] := by
  intro tables row
  refine ⟨flatten_ok_of_complete tables,
    fun rec h => recordToFlat_ok_keys_not_reserved row rec h, ?_, ?_, by rfl⟩
  · intro hstd hnd hfresh
    rw [recordToFlat_of_hasStandardCols row hstd]
    congr 1
    unfold flatRowDict
    refine fold_fresh_append row _ hnd ?_
    intro p hp hres q hq
    have hnot := hfresh p hp hres
    intro heq
    apply hnot
    rw [← heq]
    rcases List.mem_cons.mp hq with rfl | hq
    · simp
    rcases List.mem_cons.mp hq with rfl | hq
    · simp
    rcases List.mem_cons.mp hq with rfl | hq
    · simp
    rcases List.mem_cons.mp hq with rfl | hq
    · simp
    cases hq
  · intro h
    unfold recordToFlat
    rw [h]

/-- Claim C4 witness: the amended per-row equality applied at the claim's
scenario row. -/
theorem c4_flatten_behaviour_witness :
    recordToFlat ([("_time", "T1"), ("_measurement", "temp"), ("_field", "avg"),
        ("_value", "21.5"), ("region", "us"), ("_table", "0")] : Row String)
      = Except.ok
        ([("time", pyGet ([("_time", "T1"), ("_measurement", "temp"), ("_field", "avg"),
            ("_value", "21.5"), ("region", "us"), ("_table", "0")] : Row String) "_time"),
         ("measurement", pyGet ([("_time", "T1"), ("_measurement", "temp"), ("_field", "avg"),
            ("_value", "21.5"), ("region", "us"), ("_table", "0")] : Row String) "_measurement"),
         ("field", pyGet ([("_time", "T1"), ("_measurement", "temp"), ("_field", "avg"),
            ("_value", "21.5"), ("region", "us"), ("_table", "0")] : Row String) "_field"),
         ("value", pyGet ([("_time", "T1"), ("_measurement", "temp"), ("_field", "avg"),
            ("_value", "21.5"), ("region", "us"), ("_table", "0")] : Row String) "_value")] ++
          (([("_time", "T1"), ("_measurement", "temp"), ("_field", "avg"),
            ("_value", "21.5"), ("region", "us"), ("_table", "0")] : Row String).filter
              (fun p => !reservedKey p.1)).map (fun p => (p.1, some p.2))) :=
  (c4_flatten_behaviour [] [("_time", "T1"), ("_measurement", "temp"), ("_field", "avg"),
    ("_value", "21.5"), ("region", "us"), ("_table", "0")]).2.2.1 (by decide) (by decide)
    (by decide)

/-! ## Claims C2 and C3: the built query strings -/

theorem strOccurs_of_append (s x pat y : String) (h : s = x ++ (pat ++ y)) :
    strOccurs s pat = true := by
  subst h
  unfold strOccurs
  rw [String.data_append, String.data_append]
  exact occursIn_of_append pat.data x.data y.data

theorem strOccurs_false_of_char {s pat : String} {c : Char} (hc : c ∈ pat.data)
    (hs : c ∉ s.data) : strOccurs s pat = false :=
  occursIn_eq_false_of_not_mem hc hs

theorem data_ne_nil_of_getLast?_some {s : String} {c : Char}
    (h : s.data.getLast? = some c) : s.data ≠ [] := by
  intro hn
  rw [hn] at h
  cases h

/-- Claim C2 as stated, in the spec words: in the query built by
get_recent_data, a limit clause for the given limit occurs after the
descending sort directive (the limit is applied to the sorted rows). -/
def specRecentQuerySortsThenTruncates : Prop :=
  ∀ (bucket measurement : String) (limit : Int) (timeRange : String),
    sortThenLimitB (getRecentDataQuery bucket measurement limit timeRange) limit = true

/-- Claim C2 counterexample: in the concrete query built for
(b, temp, 100, -1h) no limit clause follows the sort directive — the
source pipes limit before sort, so the limit is applied to the rows in
engine order, not to the descending-sorted rows. -/
theorem c2_counterexample : ¬ specRecentQuerySortsThenTruncates := by
  intro h
  exact absurd (h "b" "temp" 100 "-1h") (by decide)

/-- Claim C2 (amended): the query built by get_recent_data selects the
measurement time-bounded by the range, truncates to the limit first and
only then sorts descending by time (the limit clause textually and
pipeline-wise precedes the sort directive); the query string contains the
measurement name, the limit value and the descending time sort directive. -/
theorem c2_recent_query_behaviour :
    ∀ (bucket measurement : String) (limit : Int) (timeRange : String),
      (∃ x y : String,
        getRecentDataQuery bucket measurement limit timeRange
          = x ++ ("|> limit(n: " ++ toString limit ++ ")"
              ++ ("\n            " ++ (sortDirectiveStr ++ y)))) ∧
      strOccurs (getRecentDataQuery bucket measurement limit timeRange) measurement = true ∧
      strOccurs (getRecentDataQuery bucket measurement limit timeRange) (toString limit) = true ∧
      strOccurs (getRecentDataQuery bucket measurement limit timeRange) sortDirectiveStr = true := by
  intro bucket measurement limit timeRange
  refine ⟨?_, ?_, ?_, ?_⟩
  · refine ⟨"\n        from(bucket: \"" ++ bucket ++ "\")\n            |> range(start: "
      ++ timeRange ++ ")\n            |> filter(fn: (r) => r._measurement == \""
      ++ measurement ++ "\")\n            ", "\n        ", ?_⟩
    unfold getRecentDataQuery sortDirectiveStr
    rw [show ("\")\n            |> limit(n: " : String)
        = "\")\n            " ++ "|> limit(n: " from by decide]
    rw [show (")\n            |> sort(columns: [\"_time\"], desc: true)\n        " : String)
        = ")" ++ ("\n            " ++ ("|> sort(columns: [\"_time\"], desc: true)" ++ "\n        "))
        from by decide]
    simp only [String.append_assoc]
  · refine strOccurs_of_append _
      ("\n        from(bucket: \"" ++ bucket ++ "\")\n            |> range(start: "
        ++ timeRange ++ ")\n            |> filter(fn: (r) => r._measurement == \"")
      measurement
      ("\")\n            |> limit(n: " ++ toString limit
        ++ ")\n            |> sort(columns: [\"_time\"], desc: true)\n        ") ?_
    unfold getRecentDataQuery
    simp only [String.append_assoc]
  · refine strOccurs_of_append _
      ("\n        from(bucket: \"" ++ bucket ++ "\")\n            |> range(start: "
        ++ timeRange ++ ")\n            |> filter(fn: (r) => r._measurement == \""
        ++ measurement ++ "\")\n            |> limit(n: ")
      (toString limit)
      (")\n            |> sort(columns: [\"_time\"], desc: true)\n        ") ?_
    unfold getRecentDataQuery
    simp only [String.append_assoc]
  · refine strOccurs_of_append _
      ("\n        from(bucket: \"" ++ bucket ++ "\")\n            |> range(start: "
        ++ timeRange ++ ")\n            |> filter(fn: (r) => r._measurement == \""
        ++ measurement ++ "\")\n            |> limit(n: " ++ toString limit
        ++ ")\n            ")
      sortDirectiveStr
      "\n        " ?_
    unfold getRecentDataQuery sortDirectiveStr
    rw [show (")\n            |> sort(columns: [\"_time\"], desc: true)\n        " : String)
        = ")\n            " ++ ("|> sort(columns: [\"_time\"], desc: true)" ++ "\n        ")
        from by decide]
    simp only [String.append_assoc]

/-- Claim C3 as stated, in the spec words: a stop bound appears in the
range iff end is given (is not None), and a limit clause is appended iff
limit is provided (is not None). -/
def specRangeQueryStopLimitIffGiven : Prop :=
  (∀ (startTime : String) (endTime : Option String),
    strOccurs (qdrTimeFilter startTime endTime) ", stop: " = true ↔ endTime.isSome = true) ∧
  (∀ (bucket measurement startTime : String) (endTime : Option String)
      (fields : Option (List String)) (tags : Option (List (String × String)))
      (limit : Option Int),
    (∃ (pre : String) (n : Int),
      queryDataRangeQuery bucket measurement startTime endTime fields tags limit
        = pre ++ ("\n    |> limit(n: " ++ toString n ++ ")")) ↔ limit.isSome = true)

/-- Claim C3 counterexample: with end given as the empty string (a given
end bound), the built range has no stop bound at all — the source tests
Python truthiness, not being-given — refuting the claim as stated. -/
theorem c3_counterexample : ¬ specRangeQueryStopLimitIffGiven := by
  intro h
  exact absurd ((h.1 "-2h" (some "")).mpr rfl) (by decide)

/-- Claim C3 (amended): the stop bound appears in the range iff end is
given and non-empty, and the limit clause is appended (at the very end)
iff limit is provided and non-zero; the filter list is the measurement
equality, then the parenthesized OR-group of the field equalities exactly
when fields is non-empty, then one tag equality per tags entry; the
claim's concrete scenario holds as stated. -/
theorem c3_range_query_behaviour :
    ∀ (bucket measurement startTime : String) (endTime : Option String)
      (fields : Option (List String)) (tags : Option (List (String × String)))
      (limit : Option Int),
      (',' ∉ startTime.data) →
      ((strOccurs (qdrTimeFilter startTime endTime) ", stop: " = true
          ↔ truthyOptStr endTime = true) ∧
       (truthyOptInt limit = true →
         queryDataRangeQuery bucket measurement startTime endTime fields tags limit
           = queryDataRangeBase bucket measurement startTime endTime fields tags
             ++ ("\n    |> limit(n: " ++ toString (limit.getD 0) ++ ")")) ∧
       (truthyOptInt limit = false →
         queryDataRangeQuery bucket measurement startTime endTime fields tags limit
             = queryDataRangeBase bucket measurement startTime endTime fields tags ∧
           ∀ (pre : String) (n : Int),
             queryDataRangeQuery bucket measurement startTime endTime fields tags limit
               ≠ pre ++ ("\n    |> limit(n: " ++ toString n ++ ")")) ∧
       (qdrFilters measurement fields tags).length
         = 1 + (if truthyOptList fields then 1 else 0) + (tags.getD []).length ∧
       (∀ kv ∈ tags.getD [],
         ("r." ++ kv.1 ++ " == \"" ++ kv.2 ++ "\"") ∈ qdrFilters measurement fields tags) ∧
       (truthyOptList fields = false →
         qdrFilters measurement fields tags
           = ["r._measurement == \"" ++ measurement ++ "\""] ++
               (tags.getD []).map (fun p => "r." ++ p.1 ++ " == \"" ++ p.2 ++ "\"")) ∧
       (strOccurs
          (queryDataRangeQuery "b" "temp" "-2h" none (some ["avg"])
            (some [("region", "us")]) (some 50))
          "r._measurement == \"temp\" and (r._field == \"avg\") and r.region == \"us\""
          = true ∧
        strOccurs
          (queryDataRangeQuery "b" "temp" "-2h" none (some ["avg"])
            (some [("region", "us")]) (some 50)) "range(start: -2h)" = true ∧
        strOccurs
          (queryDataRangeQuery "b" "temp" "-2h" none (some ["avg"])
            (some [("region", "us")]) (some 50)) ", stop: " = false ∧
        queryDataRangeQuery "b" "temp" "-2h" none (some ["avg"])
            (some [("region", "us")]) (some 50)
          = queryDataRangeBase "b" "temp" "-2h" none (some ["avg"])
              (some [("region", "us")]) ++ "\n    |> limit(n: 50)")) := by
  intro bucket measurement startTime endTime fields tags limit hcomma
  refine ⟨?_, ?_, ?_, ?_, ?_, ?_, by decide, by decide, by decide, by decide⟩
  · by_cases ht : truthyOptStr endTime = true
    · refine iff_of_true ?_ ht
      refine strOccurs_of_append _ ("range(start: " ++ startTime) ", stop: "
        (endTime.getD "" ++ ")") ?_
      unfold qdrTimeFilter
      rw [if_pos ht]
      simp only [String.append_assoc]
    · have ht' : truthyOptStr endTime = false := Bool.not_eq_true _ ▸ ht
      have hq : qdrTimeFilter startTime endTime
          = "range(start: " ++ startTime ++ "" ++ ")" := by
        unfold qdrTimeFilter
        rw [if_neg ht]
      have hnotin : ',' ∉ ("range(start: " ++ startTime ++ "" ++ ")").data := by
        simp only [String.data_append, List.mem_append]
        intro hmem
        rcases hmem with ((h1 | h1) | h1) | h1
        · exact absurd h1 (by decide)
        · exact hcomma h1
        · exact absurd h1 (by decide)
        · exact absurd h1 (by decide)
      have hocc : strOccurs (qdrTimeFilter startTime endTime) ", stop: " = false := by
        rw [hq]
        exact strOccurs_false_of_char (by decide) hnotin
      refine iff_of_false (by rw [hocc]; exact Bool.false_ne_true)
        (by rw [ht']; exact Bool.false_ne_true)
  · intro h
    unfold queryDataRangeQuery
    rw [if_pos h]
  · intro h
    have hbase : queryDataRangeQuery bucket measurement startTime endTime fields tags limit
        = queryDataRangeBase bucket measurement startTime endTime fields tags := by
      unfold queryDataRangeQuery
      rw [if_neg (by rw [h]; exact Bool.false_ne_true)]
      exact String.append_empty _
    refine ⟨hbase, ?_⟩
    intro pre n heq
    rw [hbase] at heq
    have h1 : (queryDataRangeBase bucket measurement startTime endTime fields
        tags).data.getLast? = some ' ' := by
      unfold queryDataRangeBase
      rw [data_getLast?_append _ _ (by decide)]
      decide
    have hs : ("\n    |> limit(n: " ++ toString n ++ ")").data.getLast? = some ')' := by
      rw [data_getLast?_append _ _ (by decide)]
      decide
    have h2 : ((pre ++ ("\n    |> limit(n: " ++ toString n ++ ")"))).data.getLast?
        = some ')' := by
      rw [data_getLast?_append _ _ (data_ne_nil_of_getLast?_some hs)]
      exact hs
    rw [heq, h2] at h1
    exact absurd (Option.some.inj h1) (by decide)
  · unfold qdrFilters
    cases hf : truthyOptList fields with
    | true =>
      cases htg : truthyOptList tags with
      | true =>
        simp [List.length_append]
        omega
      | false =>
        rw [truthyOptList_false_getD htg]
        simp [List.length_append]
    | false =>
      cases htg : truthyOptList tags with
      | true =>
        simp [List.length_append]
        omega
      | false =>
        rw [truthyOptList_false_getD htg]
        simp [List.length_append]
  · intro kv hkv
    cases tags with
    | none => cases hkv
    | some l =>
      have hne : l.isEmpty = false := by
        cases l with
        | nil => cases hkv
        | cons a as => rfl
      unfold qdrFilters
      simp only [truthyOptList, hne, Bool.not_false, if_pos rfl, Option.getD_some]
      refine List.mem_append.mpr (Or.inr ?_)
      exact List.mem_map_of_mem _ hkv
  · intro hf
    unfold qdrFilters
    rw [hf]
    cases htg : truthyOptList tags with
    | true => simp
    | false =>
      rw [truthyOptList_false_getD htg]
      simp

/-- Claim C3 witness: the amended stop-bound equivalence applied at a
concrete non-empty end bound. -/
theorem c3_range_query_behaviour_witness :
    strOccurs (qdrTimeFilter "-2h" (some "-1h")) ", stop: " = true :=
  ((c3_range_query_behaviour "b" "temp" "-2h" (some "-1h") none none none
    (by decide)).1).mpr (by decide)

end InfluxMcp
